import Mathlib

/-!
Verification of the Zoopla scraper core (src/main.js) against its
natural-language specification.

The JavaScript source is shallowly embedded: pure helpers become Lean
functions over explicit models of JavaScript values (null / NaN / numbers /
strings), the bounded-concurrency limiter and the quota/dedup scheduling in
the orchestrator become explicit state-transition systems, and regular
expressions become executable backtracking matchers over character lists.
-/

namespace Zoopla

/-! ## JavaScript value model

Fields of listing records hold JavaScript values.  `JsNum` models the values
a numeric-typed expression can take (null/undefined, NaN, or a finite
number); `JsPrim` additionally allows strings, for fields such as `price`
that may hold either a display string or a raw number.  Rationals stand in
for JS doubles: every number the embedded code manipulates arises from
decimal digit strings, where double rounding plays no role in the claims.
-/

inductive JsNum
  | null : JsNum
  | nan : JsNum
  | num : ℚ → JsNum
deriving DecidableEq

inductive JsPrim
  | null : JsPrim
  | nan : JsPrim
  | num : ℚ → JsPrim
  | str : String → JsPrim
deriving DecidableEq

/-- JS truthiness of a string-or-null value (`null`, `undefined` and `""`
are falsy). -/
def truthyStr : Option String → Bool
  | none => false
  | some s => s != ""

/-- JS `||` on string-or-null values. -/
def orStr (a b : Option String) : Option String :=
  if truthyStr a then a else b

/-- JS truthiness of a numeric value (`null`, `NaN` and `0` are falsy). -/
def truthyNum : JsNum → Bool
  | JsNum.num q => q != 0
  | _ => false

/-- JS `||` on numeric values. -/
def orNum (a b : JsNum) : JsNum :=
  if truthyNum a then a else b

/-- JS `??` on numeric values (only null/undefined falls through). -/
def nullishNum (a b : JsNum) : JsNum :=
  match a with
  | JsNum.null => b
  | _ => a

/-- JS truthiness of a general primitive value. -/
def truthyPrim : JsPrim → Bool
  | JsPrim.num q => q != 0
  | JsPrim.str s => s != ""
  | _ => false

/-- JS `||` on general primitive values. -/
def orPrim (a b : JsPrim) : JsPrim :=
  if truthyPrim a then a else b

/-- JS `??` on general primitive values. -/
def nullishPrim (a b : JsPrim) : JsPrim :=
  match a with
  | JsPrim.null => b
  | _ => a

/-- View a numeric value as a general primitive value. -/
def primOfNum : JsNum → JsPrim
  | JsNum.null => JsPrim.null
  | JsNum.nan => JsPrim.nan
  | JsNum.num q => JsPrim.num q

/-! ## String helpers -/

/-- Boolean list-prefix test (model of `String.prototype.startsWith`). -/
def listPrefixB : List Char → List Char → Bool
  | [], _ => true
  | _ :: _, [] => false
  | a :: as, b :: bs => (a == b) && listPrefixB as bs

/-- Model of JS `s.startsWith(p)`. -/
def jsStartsWith (s p : String) : Bool :=
  listPrefixB p.toList s.toList

def BASE_URL : String := "https://www.zoopla.co.uk"

/-- Embedding of `ensureAbsoluteUrl` (src/main.js:89-95). -/
def ensureAbsoluteUrl : Option String → Option String
  | none => none
  | some url =>
    if url = "" then none
    else if jsStartsWith url "data:" then some url
    else if jsStartsWith url "//" then some ("https:" ++ url)
    else if jsStartsWith url "http" then some url
    else some (BASE_URL ++ (if jsStartsWith url "/" then "" else "/") ++ url)

/-! ## `extractListingId` (src/main.js:97-104)

The three regular expressions are compiled to leftmost-match scanners over
the character list.  `takeDigits` realises a greedy `\d+`.
-/

def takeDigits : List Char → List Char
  | [] => []
  | c :: rest => if c.isDigit then c :: takeDigits rest else []

/-- Scanner for `/\/details\/(\d+)/`: at each position try the literal
`/details/` followed by at least one digit; the capture is the maximal
digit run. -/
def scanDetailsId : List Char → Option (List Char)
  | [] => none
  | c :: rest =>
    if listPrefixB "/details/".toList (c :: rest) then
      match (c :: rest).drop 9 with
      | d :: after => if d.isDigit then some (takeDigits (d :: after)) else scanDetailsId rest
      | [] => scanDetailsId rest
    else scanDetailsId rest

/-- After the literal `/property/`: `[^/]+` cannot cross a slash, so the
slash closing it is the first slash after at least one non-slash
character, and the digits must immediately follow it. -/
def afterNonSlash : List Char → Option (List Char)
  | [] => none
  | c :: rest =>
    if c = '/' then
      match rest with
      | d :: after => if d.isDigit then some (takeDigits (d :: after)) else none
      | [] => none
    else afterNonSlash rest

def tryPropertyTail : List Char → Option (List Char)
  | [] => none
  | c :: rest => if c = '/' then none else afterNonSlash rest

/-- Scanner for `/\/property\/[^/]+\/(\d+)/`. -/
def scanPropertyId : List Char → Option (List Char)
  | [] => none
  | c :: rest =>
    if listPrefixB "/property/".toList (c :: rest) then
      match tryPropertyTail ((c :: rest).drop 10) with
      | some m => some m
      | none => scanPropertyId rest
    else scanPropertyId rest

/-- Scanner for `/\/(\d{6,})\/?$/`: a slash, at least six digits, an
optional final slash, end of string.  Because `\d{6,}` is followed by
`\/?$`, only the maximal digit run can complete a match at a given
position. -/
def scanTrailingId : List Char → Option (List Char)
  | [] => none
  | c :: rest =>
    if c = '/' then
      let ds := takeDigits rest
      let after := rest.drop ds.length
      if 6 ≤ ds.length ∧ (after = [] ∨ after = ['/']) then some ds
      else scanTrailingId rest
    else scanTrailingId rest

/-- Embedding of `extractListingId` (src/main.js:97-104): the three
patterns are tried in order via `||`; the result is the first capture
group. -/
def extractListingId : Option String → Option String
  | none => none
  | some url =>
    if url = "" then none
    else
      match scanDetailsId url.toList with
      | some m => some (String.mk m)
      | none =>
        match scanPropertyId url.toList with
        | some m => some (String.mk m)
        | none => (scanTrailingId url.toList).map String.mk

/-! ## `parsePriceValue` (src/main.js:109-114) -/

/-- Numeric value of a digit list (most significant first). -/
def digitsVal (cs : List Char) : ℕ :=
  cs.foldl (fun acc c => 10 * acc + (c.toNat - 48)) 0

/-- JS `Number(s)` on a non-empty string made only of digits and dots:
more than one dot, or a lone dot, gives NaN; otherwise the decimal
value. -/
def jsNumOfNumericChars (cs : List Char) : JsNum :=
  if 2 ≤ cs.countP (fun c => c == '.') then JsNum.nan
  else if cs = ['.'] then JsNum.nan
  else
    let intPart := cs.takeWhile (fun c => c != '.')
    let fracPart := (cs.dropWhile (fun c => c != '.')).drop 1
    if fracPart = [] then JsNum.num (digitsVal intPart)
    else JsNum.num ((digitsVal intPart : ℚ) + (digitsVal fracPart : ℚ) / (10 : ℚ) ^ fracPart.length)

/-- The characters kept by `String(value).replace(/[^\d.]/g, '')`. -/
def stripNonNumeric (s : String) : List Char :=
  s.toList.filter (fun c => c.isDigit || c == '.')

/-- Embedding of `parsePriceValue` (src/main.js:109-114).  A number
(including NaN and 0) is returned as-is; a falsy value gives null; a
string is stripped to digits and dots and fed to `Number`. -/
def parsePriceValue : JsPrim → JsNum
  | JsPrim.num q => JsNum.num q
  | JsPrim.nan => JsNum.nan
  | JsPrim.null => JsNum.null
  | JsPrim.str s =>
    if s = "" then JsNum.null
    else
      let numeric := stripNonNumeric s
      if numeric = [] then JsNum.null else jsNumOfNumericChars numeric

/-! ## `extractUkPostcode` (src/main.js:125-129)

The single regex `/\b[A-Z]{1,2}\d[A-Z\d]?\s?\d[A-Z]{2}\b/i` is compiled to
a leftmost-match backtracking matcher.  Each layer returns the consumed
characters together with the remaining input; greedy optional parts try the
consuming alternative first, as the JS engine does.
-/

/-- JS `\w` (ASCII word character). -/
def isWordChar (c : Char) : Bool :=
  c.isAlpha || c.isDigit || c == '_'

/-- JS `\s` restricted to the whitespace characters that can occur in the
embedded inputs (space, tab, newline, carriage return, form feed,
vertical tab). -/
def isSpaceB (c : Char) : Bool :=
  c == ' ' || c == '\t' || c == '\n' || c == '\r' || c == '\x0c' || c == '\x0b'

def isLetterB (c : Char) : Bool := c.isAlpha

def isAlnumB (c : Char) : Bool := c.isAlpha || c.isDigit

/-- Word boundary after the match: end of input or a non-word character. -/
def bAfter : List Char → Bool
  | [] => true
  | c :: _ => !(isWordChar c)

/-- Word boundary before a match position: start of input or a non-word
character to the left (the pattern itself starts with a word
character). -/
def boundaryOk : Option Char → Bool
  | none => true
  | some p => !(isWordChar p)

/-- Pattern `\d[A-Z]{2}\b` -/
def mEnd : List Char → Option (List Char × List Char)
  | d :: l1 :: l2 :: rest =>
    if d.isDigit && isLetterB l1 && isLetterB l2 && bAfter rest then
      some ([d, l1, l2], rest)
    else none
  | _ => none

/-- Pattern `\s?\d[A-Z]{2}\b` (greedy optional whitespace). -/
def mSpaceEnd (cs : List Char) : Option (List Char × List Char) :=
  (match cs with
   | c :: rest => if isSpaceB c then (mEnd rest).map (fun p => (c :: p.1, p.2)) else none
   | [] => none) <|> mEnd cs

/-- Pattern `[A-Z\d]?\s?\d[A-Z]{2}\b` (greedy optional alphanumeric). -/
def mOptAlnum (cs : List Char) : Option (List Char × List Char) :=
  (match cs with
   | c :: rest => if isAlnumB c then (mSpaceEnd rest).map (fun p => (c :: p.1, p.2)) else none
   | [] => none) <|> mSpaceEnd cs

/-- Pattern `\d[A-Z\d]?\s?\d[A-Z]{2}\b` -/
def mDigitCore : List Char → Option (List Char × List Char)
  | [] => none
  | d :: rest =>
    if d.isDigit then (mOptAlnum rest).map (fun p => (d :: p.1, p.2)) else none

/-- Pattern `[A-Z]{1,2}\d[A-Z\d]?\s?\d[A-Z]{2}\b` (two letters tried before
one). -/
def mLetters : List Char → Option (List Char × List Char)
  | [] => none
  | a :: rest =>
    if isLetterB a then
      (match rest with
       | b :: rest2 =>
         if isLetterB b then (mDigitCore rest2).map (fun p => (a :: b :: p.1, p.2)) else none
       | [] => none) <|> (mDigitCore rest).map (fun p => (a :: p.1, p.2))
    else none

/-- Leftmost scan: at each position whose left context is a word boundary,
try the pattern; otherwise advance. -/
def pcScan : Option Char → List Char → Option (List Char)
  | _, [] => none
  | prev, c :: rest =>
    if boundaryOk prev then
      match mLetters (c :: rest) with
      | some p => some p.1
      | none => pcScan (some c) rest
    else pcScan (some c) rest

/-- Embedding of `extractUkPostcode` (src/main.js:125-129): falsy input
gives null; otherwise the first regex match, uppercased. -/
def extractUkPostcode : Option String → Option String
  | none => none
  | some s =>
    if s = "" then none
    else (pcScan none s.toList).map (fun m => String.mk (m.map Char.toUpper))

/-! ### Declarative postcode shape

An independent structural description of the strings the regex can match,
used to state soundness of the scanner. -/

/-- Pattern `\d[A-Z]{2}` exactly. -/
def shapedTail2 : List Char → Bool
  | [d, l1, l2] => d.isDigit && isLetterB l1 && isLetterB l2
  | _ => false

/-- Pattern `\s?\d[A-Z]{2}` exactly. -/
def shapedTail1 (cs : List Char) : Bool :=
  shapedTail2 cs ||
    (match cs with
     | c :: rest => isSpaceB c && shapedTail2 rest
     | [] => false)

/-- Pattern `[A-Z\d]?\s?\d[A-Z]{2}` exactly. -/
def shapedAfterDigitB (cs : List Char) : Bool :=
  shapedTail1 cs ||
    (match cs with
     | c :: rest => isAlnumB c && shapedTail1 rest
     | [] => false)

/-- Pattern `\d[A-Z\d]?\s?\d[A-Z]{2}` exactly. -/
def shapedCore : List Char → Bool
  | d :: rest => d.isDigit && shapedAfterDigitB rest
  | [] => false

/-- The full postcode shape `[A-Z]{1,2}\d[A-Z\d]?\s?\d[A-Z]{2}`,
independent of the scanning strategy. -/
def shapedB : List Char → Bool
  | a :: rest =>
    isLetterB a &&
      (shapedCore rest ||
        (match rest with
         | b :: rest2 => isLetterB b && shapedCore rest2
         | [] => false))
  | [] => false

/-! ### The spec's claimed outcode-only fallback

The specification describes a family of three patterns ending with an
outcode-only pattern anchored at the end of the string.  `src/main.js`
has no such fallback (it has the single regex above); the definition below
is used only to exhibit the divergence. -/

/-- Modelled from the spec: tail `\d[A-Z\d]?$` of the claimed
outcode-only-at-end pattern (missing from src/main.js, which uses a single
full-postcode regex). -/
def mOutTail : List Char → Option (List Char)
  | [d] => if d.isDigit then some [d] else none
  | [d, c] => if d.isDigit && isAlnumB c then some [d, c] else none
  | _ => none

/-- Modelled from the spec: `[A-Z]{1,2}\d[A-Z\d]?$` letters part. -/
def mOutLetters : List Char → Option (List Char)
  | [] => none
  | a :: rest =>
    if isLetterB a then
      (match rest with
       | b :: rest2 =>
         if isLetterB b then (mOutTail rest2).map (fun m => a :: b :: m) else none
       | [] => none) <|> (mOutTail rest).map (fun m => a :: m)
    else none

/-- Modelled from the spec: leftmost scan for the outcode-only-at-end
pattern. -/
def outScan : Option Char → List Char → Option (List Char)
  | _, [] => none
  | prev, c :: rest =>
    if boundaryOk prev then
      match mOutLetters (c :: rest) with
      | some m => some m
      | none => outScan (some c) rest
    else outScan (some c) rest

/-- Modelled from the spec: the outcode-only-at-end member of the claimed
regex family, which the specification says is tried after the two full
postcode patterns. -/
def specOutcodeAtEnd (s : String) : Option String :=
  (outScan none s.toList).map (fun m => String.mk (m.map Char.toUpper))

/-! ## Listing records and `buildProperty` (src/main.js:766-806)

`Stub` carries the fields produced by `normalizeListing` and read by
`buildProperty`; `Detail` carries the fields produced by
`parseDetailHtml` / `normalizeDetailFromObject`.  Absent (`null` /
`undefined`) values are `none` / `JsNum.null` / `JsPrim.null`; fields that
may hold either a raw number or a display string (price, coordinates) use
`JsPrim`.
-/

structure Stub where
  listingId : Option String := none
  url : Option String := none
  title : Option String := none
  address : Option String := none
  locality : Option String := none
  postalCode : Option String := none
  price : JsPrim := JsPrim.null
  priceValue : JsNum := JsNum.null
  beds : JsNum := JsNum.null
  baths : JsNum := JsNum.null
  propertyType : Option String := none
  latitude : JsPrim := JsPrim.null
  longitude : JsPrim := JsPrim.null
deriving DecidableEq

structure Detail where
  listingId : Option String := none
  url : Option String := none
  title : Option String := none
  price : JsPrim := JsPrim.null
  priceCurrency : Option String := none
  address : Option String := none
  streetAddress : Option String := none
  locality : Option String := none
  region : Option String := none
  postalCode : Option String := none
  country : Option String := none
  propertyType : Option String := none
  beds : JsNum := JsNum.null
  baths : JsNum := JsNum.null
  floorArea : Option String := none
  tenure : Option String := none
  description : Option String := none
  features : Option (List String) := none
  images : Option (List String) := none
  agentName : Option String := none
  agentUrl : Option String := none
  latitude : JsPrim := JsPrim.null
  longitude : JsPrim := JsPrim.null
deriving DecidableEq

structure Property where
  listingId : Option String
  url : Option String
  title : Option String
  price : JsPrim
  priceValue : JsNum
  priceCurrency : Option String
  address : Option String
  streetAddress : Option String
  locality : Option String
  region : Option String
  postalCode : Option String
  country : Option String
  propertyType : Option String
  beds : JsNum
  baths : JsNum
  floorArea : Option String
  tenure : Option String
  description : Option String
  features : Option (List String)
  images : Option (List String)
  agentName : Option String
  agentUrl : Option String
  latitude : JsPrim
  longitude : JsPrim
  source : String
  scrapedAt : String
deriving DecidableEq

/-- Accessor modelling `detail?.f` for a numeric field (an absent record gives `undefined`,
which behaves as null in both `||` and `??`). -/
def dNumF (d : Option Detail) (f : Detail → JsNum) : JsNum :=
  match d with
  | some x => f x
  | none => JsNum.null

def dPrimF (d : Option Detail) (f : Detail → JsPrim) : JsPrim :=
  match d with
  | some x => f x
  | none => JsPrim.null

def sNumF (l : Option Stub) (f : Stub → JsNum) : JsNum :=
  match l with
  | some x => f x
  | none => JsNum.null

def sPrimF (l : Option Stub) (f : Stub → JsPrim) : JsPrim :=
  match l with
  | some x => f x
  | none => JsPrim.null

/-- Embedding of `buildProperty` (src/main.js:766-806).  `source` and the
`scrapedAt` timestamp are parameters (the latter is `new Date()` in the
source).  On `features` and `images`, JS `x || null` is the identity
because arrays are truthy and the fields are otherwise null, so the field
is taken directly. -/
def buildProperty (listing : Option Stub) (detail : Option Detail)
    (source scrapedAt : String) : Property :=
  let url := ensureAbsoluteUrl (orStr (listing.bind (·.url)) (detail.bind (·.url)))
  let listingId :=
    orStr (orStr (orStr (listing.bind (·.listingId)) (detail.bind (·.listingId)))
      (extractListingId url)) url
  let priceValue :=
    orNum (orNum (orNum (parsePriceValue (dPrimF detail (·.price)))
      (parsePriceValue (primOfNum (sNumF listing (·.priceValue)))))
      (parsePriceValue (sPrimF listing (·.price)))) JsNum.null
  let address := orStr (orStr (detail.bind (·.address)) (listing.bind (·.address))) none
  { listingId := orStr listingId none
    url := url
    title := orStr (orStr (detail.bind (·.title)) (listing.bind (·.title))) none
    price := orPrim (orPrim (dPrimF detail (·.price)) (sPrimF listing (·.price))) JsPrim.null
    priceValue := priceValue
    priceCurrency := orStr (detail.bind (·.priceCurrency)) none
    address := address
    streetAddress := orStr (detail.bind (·.streetAddress)) none
    locality := orStr (orStr (detail.bind (·.locality)) (listing.bind (·.locality))) none
    region := orStr (detail.bind (·.region)) none
    postalCode :=
      orStr (orStr (detail.bind (·.postalCode)) (listing.bind (·.postalCode)))
        (extractUkPostcode address)
    country := orStr (detail.bind (·.country)) none
    propertyType :=
      orStr (orStr (detail.bind (·.propertyType)) (listing.bind (·.propertyType))) none
    beds := nullishNum (dNumF detail (·.beds)) (nullishNum (sNumF listing (·.beds)) JsNum.null)
    baths := nullishNum (dNumF detail (·.baths)) (nullishNum (sNumF listing (·.baths)) JsNum.null)
    floorArea := orStr (detail.bind (·.floorArea)) none
    tenure := orStr (detail.bind (·.tenure)) none
    description := orStr (detail.bind (·.description)) none
    features := detail.bind (·.features)
    images := detail.bind (·.images)
    agentName := orStr (detail.bind (·.agentName)) none
    agentUrl := orStr (detail.bind (·.agentUrl)) none
    latitude :=
      nullishPrim (dPrimF detail (·.latitude)) (nullishPrim (sPrimF listing (·.latitude)) JsPrim.null)
    longitude :=
      nullishPrim (dPrimF detail (·.longitude)) (nullishPrim (sPrimF listing (·.longitude)) JsPrim.null)
    source := source
    scrapedAt := scrapedAt }

/-- The specification's per-field merge rule, taken literally: prefer the
detail's value when it is present and non-null, otherwise the stub's
value, otherwise null.  Used to compare the spec wording with the
implementation. -/
def specFieldMerge (d s : Option String) : Option String :=
  match d with
  | some v => some v
  | none => s

/-! ## The concurrency limiter (src/main.js:150-170)

`createLimiter(maxConcurrency)` keeps a counter `active` and a FIFO
`queue`; `next()` starts the head of the queue whenever `active` is below
the bound, and every task's `.finally` decrements `active` and calls
`next()` again, regardless of whether the task resolved or rejected.

The model identifies tasks by numeric ids.  `active` always equals the
number of running tasks, so it is represented by `running.length`.
`limNext` is `next()`; the two externally triggered events are a
submission and the settlement (fulfilment or rejection) of a running
task.
-/

structure LimState where
  queue : List ℕ
  running : List ℕ
  started : List ℕ
  submitted : List ℕ
  doneOk : List ℕ
  doneErr : List ℕ
deriving DecidableEq

inductive LimEvent
  | submit : ℕ → LimEvent
  | settle : ℕ → Bool → LimEvent
deriving DecidableEq

/-- Model of `next()`: if below the concurrency bound and the queue is non-empty,
shift the first queued task and start it. -/
def limNext (maxConcurrency : ℕ) (s : LimState) : LimState :=
  if maxConcurrency ≤ s.running.length then s
  else
    match s.queue with
    | [] => s
    | t :: rest =>
      { s with queue := rest, running := s.running ++ [t], started := s.started ++ [t] }

/-- One externally triggered step of the limiter: a submission pushes the
task and calls `next()`; a settlement (with either outcome) runs the
`.finally` handler, which removes the task from the running set and calls
`next()`. -/
def limStep (maxConcurrency : ℕ) (s : LimState) : LimEvent → LimState
  | LimEvent.submit t =>
    limNext maxConcurrency { s with queue := s.queue ++ [t], submitted := s.submitted ++ [t] }
  | LimEvent.settle t ok =>
    if t ∈ s.running then
      limNext maxConcurrency
        { s with
          running := s.running.erase t
          doneOk := if ok then s.doneOk ++ [t] else s.doneOk
          doneErr := if ok then s.doneErr else s.doneErr ++ [t] }
    else s

def limInit : LimState := ⟨[], [], [], [], [], []⟩

def limRun (maxConcurrency : ℕ) (events : List LimEvent) : LimState :=
  events.foldl (limStep maxConcurrency) limInit

/-! ## The orchestrator's per-listing tasks (src/main.js:946-1082)

Each strategy maps its listing stubs to limiter tasks of the same shape
(src/main.js:973-990, 1015-1032, 1058-1070):

  - synchronously on start: if `saved >= resultsWanted` return; compute the
    identity `key` (stub `listingId || url`); if the key is falsy or
    already in `seen` return; otherwise add it to `seen`;
  - then suspend (detail fetch and/or `Dataset.pushData`), after which the
    Property has been pushed to the sink;
  - then, after the `await` of `pushData`, increment `saved`.

The model makes each suspension an explicit scheduling point, since the
single-threaded event loop can interleave other tasks there.  A task past
the gate is in `fetching`; once its Property has been pushed (emitted) it
moves to `pendingInc` until its `saved += 1` runs.  The limiter bound `N`
constrains how many tasks are between start and completion.  `submit`
events model stubs scheduled from any page of any strategy; keys are the
gate keys, `none` standing for a falsy key.
-/

structure OrchState where
  queue : List (Option String)
  fetching : List String
  pendingInc : List String
  seen : List String
  saved : ℕ
  emitted : List String
deriving DecidableEq

inductive OrchAct
  | submit : Option String → OrchAct
  | start : OrchAct
  | complete : String → OrchAct
  | incr : String → OrchAct
deriving DecidableEq

/-- Number of tenant tasks of the limiter (started, not yet finished). -/
def orchActive (s : OrchState) : ℕ :=
  s.fetching.length + s.pendingInc.length

/-- One scheduling step.  `start` runs the synchronous prefix of the next
queued task (quota gate, then dedup gate, executed atomically because
there is no `await` between them); `complete k` models the task with key
`k` reaching and executing its `Dataset.pushData` call (the emission);
`incr k` models it resuming after that `await` and incrementing
`saved`. -/
def orchStep (N quota : ℕ) (s : OrchState) : OrchAct → OrchState
  | OrchAct.submit k => { s with queue := s.queue ++ [k] }
  | OrchAct.start =>
    if N ≤ orchActive s then s
    else
      match s.queue with
      | [] => s
      | k :: rest =>
        if quota ≤ s.saved then { s with queue := rest }
        else
          match k with
          | none => { s with queue := rest }
          | some key =>
            if key ∈ s.seen then { s with queue := rest }
            else
              { s with
                queue := rest
                fetching := s.fetching ++ [key]
                seen := key :: s.seen }
  | OrchAct.complete k =>
    if k ∈ s.fetching then
      { s with
        fetching := s.fetching.erase k
        pendingInc := s.pendingInc ++ [k]
        emitted := s.emitted ++ [k] }
    else s
  | OrchAct.incr k =>
    if k ∈ s.pendingInc then
      { s with pendingInc := s.pendingInc.erase k, saved := s.saved + 1 }
    else s

def orchInit : OrchState := ⟨[], [], [], [], 0, []⟩

def orchRun (N quota : ℕ) (acts : List OrchAct) : OrchState :=
  acts.foldl (orchStep N quota) orchInit

/-! ## The bounded block-event log (src/main.js:52-60) -/

structure BlockEvent where
  url : String
  statusCode : Option ℤ
  reason : String
  timestamp : String
deriving DecidableEq

/-- Embedding of `recordBlockEvent`: once fifty events are stored, further
events are dropped; otherwise the event (with `statusCode ?? null` and a
timestamp) is appended. -/
def recordBlockEvent (url : String) (statusCode : Option ℤ) (reason : String)
    (timestamp : String) (events : List BlockEvent) : List BlockEvent :=
  if 50 ≤ events.length then events
  else events ++ [{ url := url, statusCode := statusCode, reason := reason,
                    timestamp := timestamp }]

/-- All `recordBlockEvent` calls of a run, folded over the module-level
`BLOCK_EVENTS` array, which starts empty. -/
def runBlockLog (inputs : List (String × Option ℤ × String × String)) : List BlockEvent :=
  inputs.foldl (fun evs i => recordBlockEvent i.1 i.2.1 i.2.2.1 i.2.2.2 evs) []

/-! ## The json-api page loop and the HTML fallback gate
(src/main.js:957-1007)

The loop `for (page = 1; page <= maxPages && saved < resultsWanted; ...)`
fetches a page of listings and breaks when the page yields none; otherwise
the page's batch of tasks runs to completion (`await Promise.all`) before
the next page is requested.  `oracle page` gives the stubs of each page;
`eff stubs saved` abstracts the value of `saved` after the page's batch.
The function returns the list of pages actually requested and the final
`saved`.  The fuel argument counts the remaining pages up to
`maxPages`. -/
def apiPagesFrom (oracle : ℕ → List (Option String))
    (eff : List (Option String) → ℕ → ℕ) (quota : ℕ) :
    ℕ → ℕ → ℕ → List ℕ × ℕ
  | 0, _, saved => ([], saved)
  | fuel + 1, page, saved =>
    if quota ≤ saved then ([], saved)
    else if (oracle page).isEmpty then ([page], saved)
    else
      let r := apiPagesFrom oracle eff quota fuel (page + 1) (eff (oracle page) saved)
      (page :: r.1, r.2)

def ENABLE_HTML_FALLBACK : Bool := true

/-- One target's json-api strategy followed by the HTML fallback gate
`saved < resultsWanted && useHtmlFallback` (src/main.js:1006): the pages
requested from the API, the resulting `saved`, and whether the HTML
strategy is entered. -/
def runTargetModel (oracle : ℕ → List (Option String))
    (eff : List (Option String) → ℕ → ℕ) (quota maxPages : ℕ) :
    List ℕ × ℕ × Bool :=
  let r := apiPagesFrom oracle eff quota maxPages 1 0
  (r.1, r.2, decide (r.2 < quota) && ENABLE_HTML_FALLBACK)

/-! ## Helper lemmas -/

theorem listPrefixB_cons {c : Char} {p l : List Char}
    (h : listPrefixB (c :: p) l = true) :
    ∃ t, l = c :: t ∧ listPrefixB p t = true := by
  cases l with
  | nil => simp [listPrefixB] at h
  | cons b t =>
    simp only [listPrefixB, Bool.and_eq_true, beq_iff_eq] at h
    exact ⟨t, by rw [h.1], h.2⟩

theorem ne_empty_of_toList_eq_cons {s : String} {c : Char} {t : List Char}
    (h : s.toList = c :: t) : s ≠ "" := by
  intro he
  subst he
  exact List.noConfusion (show ([] : List Char) = c :: t from h)

/-- A non-null value returned by `ensureAbsoluteUrl` starts with `http` or
with `data:`. -/
theorem ensureAbsoluteUrl_some_starts {u : Option String} {s : String}
    (h : ensureAbsoluteUrl u = some s) :
    jsStartsWith s "http" = true ∨ jsStartsWith s "data:" = true := by
  match u with
  | none => exact absurd h (by simp [ensureAbsoluteUrl])
  | some url =>
    simp only [ensureAbsoluteUrl] at h
    by_cases h0 : url = ""
    · rw [if_pos h0] at h; exact absurd h (by simp)
    · rw [if_neg h0] at h
      by_cases h1 : jsStartsWith url "data:" = true
      · rw [if_pos h1] at h
        simp only [Option.some.injEq] at h
        subst h
        exact Or.inr h1
      · rw [if_neg h1] at h
        by_cases h2 : jsStartsWith url "//" = true
        · rw [if_pos h2] at h
          simp only [Option.some.injEq] at h
          subst h
          exact Or.inl rfl
        · rw [if_neg h2] at h
          by_cases h3 : jsStartsWith url "http" = true
          · rw [if_pos h3] at h
            simp only [Option.some.injEq] at h
            subst h
            exact Or.inl h3
          · rw [if_neg h3] at h
            simp only [Option.some.injEq] at h
            subst h
            by_cases h4 : jsStartsWith url "/" = true
            · rw [if_pos h4]; exact Or.inl rfl
            · rw [if_neg h4]; exact Or.inl rfl

/-- A string starting with `http` or `data:` is non-empty. -/
theorem ne_empty_of_starts {s : String}
    (h : jsStartsWith s "http" = true ∨ jsStartsWith s "data:" = true) :
    s ≠ "" := by
  rcases h with h | h
  · obtain ⟨t, ht, -⟩ := listPrefixB_cons (show listPrefixB ('h' :: "ttp".toList) s.toList = true from h)
    exact ne_empty_of_toList_eq_cons ht
  · obtain ⟨t, ht, -⟩ := listPrefixB_cons (show listPrefixB ('d' :: "ata:".toList) s.toList = true from h)
    exact ne_empty_of_toList_eq_cons ht

/-- The function `ensureAbsoluteUrl` never returns the empty string. -/
theorem ensureAbsoluteUrl_some_ne_empty {u : Option String} {s : String}
    (h : ensureAbsoluteUrl u = some s) : s ≠ "" :=
  ne_empty_of_starts (ensureAbsoluteUrl_some_starts h)

/-- Strings starting with `http` or `data:` are fixed points of
`ensureAbsoluteUrl`. -/
theorem ensureAbsoluteUrl_fixed {s : String}
    (h : jsStartsWith s "http" = true ∨ jsStartsWith s "data:" = true) :
    ensureAbsoluteUrl (some s) = some s := by
  have hne : s ≠ "" := ne_empty_of_starts h
  rcases h with h | h
  · obtain ⟨t, ht, -⟩ := listPrefixB_cons (show listPrefixB ('h' :: "ttp".toList) s.toList = true from h)
    have hd : jsStartsWith s "data:" = false := by
      rw [jsStartsWith, ht]; rfl
    have hs : jsStartsWith s "//" = false := by
      rw [jsStartsWith, ht]; rfl
    simp only [ensureAbsoluteUrl, if_neg hne]
    rw [if_neg (by simp [hd]), if_neg (by simp [hs]), if_pos h]
  · simp only [ensureAbsoluteUrl, if_neg hne]
    rw [if_pos h]

/-- On a non-empty input, `ensureAbsoluteUrl` returns a value. -/
theorem ensureAbsoluteUrl_some_of_ne_empty {url : String} (h : url ≠ "") :
    ∃ r, ensureAbsoluteUrl (some url) = some r := by
  simp only [ensureAbsoluteUrl, if_neg h]
  by_cases h1 : jsStartsWith url "data:" = true
  · rw [if_pos h1]; exact ⟨url, rfl⟩
  · rw [if_neg h1]
    by_cases h2 : jsStartsWith url "//" = true
    · rw [if_pos h2]; exact ⟨_, rfl⟩
    · rw [if_neg h2]
      by_cases h3 : jsStartsWith url "http" = true
      · rw [if_pos h3]; exact ⟨url, rfl⟩
      · rw [if_neg h3]; exact ⟨_, rfl⟩

/-- C10, part of the claim assembled from the helper lemmas: the
characterization of null results. -/
theorem ensureAbsoluteUrl_eq_none_iff (u : Option String) :
    ensureAbsoluteUrl u = none ↔ u = none ∨ u = some "" := by
  constructor
  · intro h
    match u with
    | none => exact Or.inl rfl
    | some url =>
      by_cases h0 : url = ""
      · exact Or.inr (by rw [h0])
      · obtain ⟨r, hr⟩ := ensureAbsoluteUrl_some_of_ne_empty h0
        rw [hr] at h
        exact absurd h (by simp)
  · rintro (rfl | rfl) <;> rfl

/-! ## Claim C10 -/

/-- Claim C10: `ensureAbsoluteUrl` is idempotent; it returns null exactly on
null or empty input; and every non-null result starts with `http` or
`data:`. -/
theorem claim_C10 (u : Option String) :
    ensureAbsoluteUrl (ensureAbsoluteUrl u) = ensureAbsoluteUrl u
    ∧ (ensureAbsoluteUrl u = none ↔ u = none ∨ u = some "")
    ∧ ∀ s, ensureAbsoluteUrl u = some s →
        (jsStartsWith s "http" = true ∨ jsStartsWith s "data:" = true) := by
  refine ⟨?_, ensureAbsoluteUrl_eq_none_iff u, fun s h => ensureAbsoluteUrl_some_starts h⟩
  match hv : ensureAbsoluteUrl u with
  | none => rfl
  | some s => exact ensureAbsoluteUrl_fixed (ensureAbsoluteUrl_some_starts hv)

/-- Witness for C10 at a concrete input, discharging the inner
implication. -/
theorem claim_C10_witness :
    ensureAbsoluteUrl (ensureAbsoluteUrl (some "/foo")) = ensureAbsoluteUrl (some "/foo")
    ∧ (jsStartsWith "https://www.zoopla.co.uk/foo" "http" = true
        ∨ jsStartsWith "https://www.zoopla.co.uk/foo" "data:" = true) :=
  ⟨(claim_C10 (some "/foo")).1,
   (claim_C10 (some "/foo")).2.2 "https://www.zoopla.co.uk/foo" (by decide)⟩

/-! ## Claim C9 -/

theorem runBlockLog_foldl_length
    (inputs : List (String × Option ℤ × String × String)) :
    ∀ evs : List BlockEvent,
      (inputs.foldl (fun evs i => recordBlockEvent i.1 i.2.1 i.2.2.1 i.2.2.2 evs) evs).length =
        if 50 ≤ evs.length then evs.length else min (evs.length + inputs.length) 50 := by
  induction inputs with
  | nil =>
    intro evs
    by_cases h : 50 ≤ evs.length
    · rw [if_pos h]; rfl
    · rw [if_neg h]
      simp only [List.foldl_nil, List.length_nil]
      omega
  | cons i rest ih =>
    intro evs
    rw [List.foldl_cons, ih]
    simp only [recordBlockEvent, List.length_cons]
    by_cases h : 50 ≤ evs.length
    · simp only [if_pos h]
    · simp only [if_neg h, List.length_append, List.length_cons, List.length_nil]
      split_ifs <;> omega

/-- Claim C9: The block-event log never exceeds fifty entries; in
particular one hundred recorded events leave exactly fifty stored.  The
length of the log is exactly `min inputs 50`. -/
theorem claim_C9 (inputs : List (String × Option ℤ × String × String)) :
    (runBlockLog inputs).length = min inputs.length 50
    ∧ (runBlockLog inputs).length ≤ 50 := by
  have h : (runBlockLog inputs).length = min inputs.length 50 := by
    have h0 := runBlockLog_foldl_length inputs []
    rw [if_neg (by simp)] at h0
    simpa [runBlockLog] using h0
  exact ⟨h, by omega⟩

/-! ## Limiter invariants -/

theorem foldl_invariant {σ α : Type} {P : σ → Prop} (step : σ → α → σ)
    (h : ∀ s a, P s → P (step s a)) :
    ∀ (l : List α) (s : σ), P s → P (l.foldl step s) := by
  intro l
  induction l with
  | nil => intro s hs; exact hs
  | cons a rest ih => intro s hs; exact ih _ (h s a hs)

/-- The limiter invariant: the concurrency bound holds, and the tasks
started so far followed by the tasks still queued are exactly the
submissions in submission order (FIFO admission, no task dropped). -/
def limInv (N : ℕ) (s : LimState) : Prop :=
  s.running.length ≤ N ∧ s.started ++ s.queue = s.submitted

theorem limNext_inv {N : ℕ} {s : LimState} (h : limInv N s) :
    limInv N (limNext N s) := by
  obtain ⟨h1, h2⟩ := h
  unfold limNext
  by_cases hb : N ≤ s.running.length
  · rw [if_pos hb]; exact ⟨h1, h2⟩
  · rw [if_neg hb]
    cases hc : s.queue with
    | nil => exact ⟨h1, h2⟩
    | cons t rest =>
      refine ⟨by simp; omega, ?_⟩
      rw [hc] at h2
      simpa [List.append_assoc] using h2

theorem limStep_inv {N : ℕ} {s : LimState} (e : LimEvent) (h : limInv N s) :
    limInv N (limStep N s e) := by
  obtain ⟨h1, h2⟩ := h
  cases e with
  | submit t =>
    refine limNext_inv ⟨h1, ?_⟩
    simp only [← List.append_assoc, h2]
  | settle t ok =>
    by_cases hm : t ∈ s.running
    · rw [limStep, if_pos hm]
      refine limNext_inv ⟨?_, h2⟩
      rw [List.length_erase_of_mem hm]
      omega
    · rw [limStep, if_neg hm]
      exact ⟨h1, h2⟩

/-- The scheduling decisions of `limNext` depend only on the queue, the
running set and the start history, not on the settled-task bookkeeping. -/
theorem limNext_core_congr {N : ℕ} {s1 s2 : LimState}
    (hq : s1.queue = s2.queue) (hr : s1.running = s2.running)
    (hs : s1.started = s2.started) (hsub : s1.submitted = s2.submitted) :
    (limNext N s1).queue = (limNext N s2).queue
    ∧ (limNext N s1).running = (limNext N s2).running
    ∧ (limNext N s1).started = (limNext N s2).started
    ∧ (limNext N s1).submitted = (limNext N s2).submitted := by
  obtain ⟨q1, r1, st1, sub1, ok1, er1⟩ := s1
  obtain ⟨q2, r2, st2, sub2, ok2, er2⟩ := s2
  replace hq : q1 = q2 := hq
  replace hr : r1 = r2 := hr
  replace hs : st1 = st2 := hs
  replace hsub : sub1 = sub2 := hsub
  subst hq; subst hr; subst hs; subst hsub
  by_cases h : N ≤ r1.length
  · simp [limNext, h]
  · cases q1 with
    | nil => simp [limNext, h]
    | cons t rest => simp [limNext, h]

/-! ## Claim C5 -/

/-- Claim C5: For `createLimiter(N)`: at most `N` tasks run at any point;
tasks are started in submission (FIFO) order and none is dropped
(the start history followed by the queue is exactly the submission
history); and a task's rejection drives the queue exactly as its
fulfilment does. -/
theorem claim_C5 (N : ℕ) (events : List LimEvent) :
    (limRun N events).running.length ≤ N
    ∧ (limRun N events).started ++ (limRun N events).queue = (limRun N events).submitted
    ∧ ∀ (s : LimState) (t : ℕ),
        (limStep N s (LimEvent.settle t false)).queue
            = (limStep N s (LimEvent.settle t true)).queue
        ∧ (limStep N s (LimEvent.settle t false)).running
            = (limStep N s (LimEvent.settle t true)).running
        ∧ (limStep N s (LimEvent.settle t false)).started
            = (limStep N s (LimEvent.settle t true)).started
        ∧ (limStep N s (LimEvent.settle t false)).submitted
            = (limStep N s (LimEvent.settle t true)).submitted := by
  have hinv : limInv N (limRun N events) :=
    foldl_invariant _ (fun s e h => limStep_inv e h) events limInit ⟨by simp [limInit], rfl⟩
  refine ⟨hinv.1, hinv.2, fun s t => ?_⟩
  unfold limStep
  by_cases hm : t ∈ s.running
  · simp only [if_pos hm]
    exact limNext_core_congr rfl rfl rfl rfl
  · simp [if_neg hm]

/-! ## Orchestrator invariants -/

/-- Tasks past the quota gate: in flight (before or after their emission)
or fully finished (counted by `saved`). -/
def orchMeasure (s : OrchState) : ℕ :=
  s.fetching.length + s.pendingInc.length + s.saved

/-- Quota invariant: every emission is matched in `pendingInc` or
`saved`, and the number of tasks that ever passed the quota gate is
bounded, because a task passes only while `saved < quota` with fewer than
`N` tasks in flight. -/
def orchQuotaInv (N quota : ℕ) (s : OrchState) : Prop :=
  s.emitted.length = s.pendingInc.length + s.saved
  ∧ (orchMeasure s = 0 ∨ orchMeasure s < quota + N)

theorem orchStep_quotaInv {N quota : ℕ} {s : OrchState} (a : OrchAct)
    (h : orchQuotaInv N quota s) : orchQuotaInv N quota (orchStep N quota s a) := by
  obtain ⟨h1, h2⟩ := h
  cases a with
  | submit k => exact ⟨h1, h2⟩
  | start =>
    rw [orchStep]
    by_cases hb : N ≤ orchActive s
    · rw [if_pos hb]; exact ⟨h1, h2⟩
    · rw [if_neg hb]
      cases hq : s.queue with
      | nil => exact ⟨h1, h2⟩
      | cons k rest =>
        dsimp only
        by_cases hsv : quota ≤ s.saved
        · rw [if_pos hsv]; exact ⟨h1, h2⟩
        · rw [if_neg hsv]
          cases k with
          | none => exact ⟨h1, h2⟩
          | some key =>
            dsimp only
            by_cases hseen : key ∈ s.seen
            · rw [if_pos hseen]; exact ⟨h1, h2⟩
            · rw [if_neg hseen]
              refine ⟨h1, Or.inr ?_⟩
              simp only [orchMeasure, orchActive] at *
              simp only [List.length_append, List.length_cons, List.length_nil]
              omega
  | complete k =>
    rw [orchStep]
    by_cases hm : k ∈ s.fetching
    · rw [if_pos hm]
      have hl := List.length_erase_of_mem hm
      have hpos : 1 ≤ s.fetching.length := List.length_pos.mpr (List.ne_nil_of_mem hm)
      constructor
      · simp only [List.length_append, List.length_cons, List.length_nil]
        omega
      · simp only [orchMeasure] at *
        simp only [List.length_append, List.length_cons, List.length_nil, hl]
        omega
    · rw [if_neg hm]; exact ⟨h1, h2⟩
  | incr k =>
    rw [orchStep]
    by_cases hm : k ∈ s.pendingInc
    · rw [if_pos hm]
      have hl := List.length_erase_of_mem hm
      have hpos : 1 ≤ s.pendingInc.length := List.length_pos.mpr (List.ne_nil_of_mem hm)
      constructor
      · simp only []
        omega
      · simp only [orchMeasure] at *
        simp only [hl]
        omega
    · rw [if_neg hm]; exact ⟨h1, h2⟩

/-- The number of emitted Properties is bounded by `quota + N - 1`: the
quota can be overshot, but only by in-flight tasks, of which there are
fewer than `N`. -/
theorem orch_emitted_bound (N quota : ℕ) (acts : List OrchAct) :
    (orchRun N quota acts).emitted.length = 0
    ∨ (orchRun N quota acts).emitted.length < quota + N := by
  have hinv : orchQuotaInv N quota (orchRun N quota acts) :=
    foldl_invariant _ (fun s a h => orchStep_quotaInv a h) acts orchInit
      ⟨rfl, Or.inl rfl⟩
  obtain ⟨h1, h2⟩ := hinv
  rcases h2 with h2 | h2
  · left
    simp only [orchMeasure] at h2
    omega
  · right
    simp only [orchMeasure] at h2
    omega

/-- Dedup invariant: tasks in flight and emissions carry pairwise
distinct keys, all registered in `seen`. -/
def orchDedupInv (s : OrchState) : Prop :=
  (s.fetching ++ s.emitted).Nodup
  ∧ ∀ k, k ∈ s.fetching ++ s.emitted → k ∈ s.seen

theorem orchStep_dedupInv {N quota : ℕ} {s : OrchState} (a : OrchAct)
    (h : orchDedupInv s) : orchDedupInv (orchStep N quota s a) := by
  obtain ⟨h1, h2⟩ := h
  cases a with
  | submit k => exact ⟨h1, h2⟩
  | start =>
    rw [orchStep]
    by_cases hb : N ≤ orchActive s
    · rw [if_pos hb]; exact ⟨h1, h2⟩
    · rw [if_neg hb]
      cases hq : s.queue with
      | nil => exact ⟨h1, h2⟩
      | cons k rest =>
        dsimp only
        by_cases hsv : quota ≤ s.saved
        · rw [if_pos hsv]; exact ⟨h1, h2⟩
        · rw [if_neg hsv]
          cases k with
          | none => exact ⟨h1, h2⟩
          | some key =>
            dsimp only
            by_cases hseen : key ∈ s.seen
            · rw [if_pos hseen]; exact ⟨h1, h2⟩
            · rw [if_neg hseen]
              have hnotin : key ∉ s.fetching ++ s.emitted := fun hmem => hseen (h2 key hmem)
              have hperm : List.Perm ((s.fetching ++ [key]) ++ s.emitted)
                  (key :: (s.fetching ++ s.emitted)) := by
                rw [List.append_assoc]
                exact List.perm_middle
              constructor
              · exact hperm.nodup_iff.mpr (List.nodup_cons.mpr ⟨hnotin, h1⟩)
              · intro x hx
                have hx2 : x ∈ key :: (s.fetching ++ s.emitted) := hperm.mem_iff.mp hx
                rcases List.mem_cons.mp hx2 with rfl | hx3
                · exact List.mem_cons_self _ _
                · exact List.mem_cons_of_mem _ (h2 x hx3)
  | complete k =>
    rw [orchStep]
    by_cases hm : k ∈ s.fetching
    · rw [if_pos hm]
      have hf : List.Perm s.fetching (k :: s.fetching.erase k) := List.perm_cons_erase hm
      have hp1 : List.Perm (s.fetching.erase k ++ (s.emitted ++ [k]))
          (s.fetching.erase k ++ (k :: s.emitted)) :=
        List.Perm.append_left _ (List.perm_append_singleton _ _)
      have hp2 : List.Perm (s.fetching.erase k ++ (k :: s.emitted))
          (k :: (s.fetching.erase k ++ s.emitted)) :=
        List.perm_middle
      have hp3 : List.Perm ((k :: s.fetching.erase k) ++ s.emitted)
          (s.fetching ++ s.emitted) :=
        List.Perm.append_right _ hf.symm
      have hperm : List.Perm (s.fetching.erase k ++ (s.emitted ++ [k]))
          (s.fetching ++ s.emitted) :=
        (hp1.trans hp2).trans hp3
      constructor
      · exact hperm.nodup_iff.mpr h1
      · intro x hx
        exact h2 x (hperm.mem_iff.mp hx)
    · rw [if_neg hm]; exact ⟨h1, h2⟩
  | incr k =>
    rw [orchStep]
    by_cases hm : k ∈ s.pendingInc
    · rw [if_pos hm]; exact ⟨h1, h2⟩
    · rw [if_neg hm]; exact ⟨h1, h2⟩

/-! ## Claim C2 -/

/-- Claim C2: Within one run, across any interleaving of submissions,
starts, emissions and completions from all strategies, no two emitted
Properties share an identity key: the dedup gate registers the key
synchronously with checking it, so at most one task per key ever reaches
its emission. -/
theorem claim_C2 (N quota : ℕ) (acts : List OrchAct) :
    (orchRun N quota acts).emitted.Nodup := by
  have hinv : orchDedupInv (orchRun N quota acts) :=
    foldl_invariant _ (fun s a h => orchStep_dedupInv a h) acts orchInit
      ⟨List.nodup_nil, by intro k hk; exact absurd hk (by simp [orchInit])⟩
  exact hinv.1.of_append_right

/-! ## Claim C1 -/

/-- Claim C1: The quota can be overshot: with the deployed concurrency
bound `N = 3` and `resultsWanted = 1`, two tasks submitted from one page
both pass the quota gate (each sees `saved = 0`) before either's detail
fetch and `Dataset.pushData` complete, so two Properties are emitted.
The schedule below is exactly such an interleaving. -/
theorem claim_C1 :
    (orchRun 3 1
      [OrchAct.submit (some "a"), OrchAct.submit (some "b"),
       OrchAct.start, OrchAct.start,
       OrchAct.complete "a", OrchAct.complete "b",
       OrchAct.incr "a", OrchAct.incr "b"]).emitted.length = 2
    ∧ ¬((orchRun 3 1
      [OrchAct.submit (some "a"), OrchAct.submit (some "b"),
       OrchAct.start, OrchAct.start,
       OrchAct.complete "a", OrchAct.complete "b",
       OrchAct.incr "a", OrchAct.incr "b"]).emitted.length ≤ 1) := by
  constructor <;> decide

/-! ## Claim C6 -/

/-- Pages requested by the json-api loop start at the loop's current
page. -/
theorem apiPagesFrom_lower (oracle : ℕ → List (Option String))
    (eff : List (Option String) → ℕ → ℕ) (quota : ℕ) :
    ∀ (fuel page saved q : ℕ),
      q ∈ (apiPagesFrom oracle eff quota fuel page saved).1 → page ≤ q := by
  intro fuel
  induction fuel with
  | zero => intro page saved q hq; exact absurd hq (by simp [apiPagesFrom])
  | succ fuel ih =>
    intro page saved q hq
    rw [apiPagesFrom] at hq
    by_cases h1 : quota ≤ saved
    · rw [if_pos h1] at hq; exact absurd hq (by simp)
    · rw [if_neg h1] at hq
      by_cases h2 : (oracle page).isEmpty = true
      · rw [if_pos h2] at hq
        have hqe : q = page := by simpa using hq
        omega
      · rw [if_neg h2] at hq
        dsimp only at hq
        simp only [List.mem_cons] at hq
        rcases hq with rfl | hq
        · exact le_refl q
        · have := ih (page + 1) (eff (oracle page) saved) q hq
          omega

/-- A page that yields zero stubs is the last page the strategy
requests. -/
theorem apiPagesFrom_zero_terminates (oracle : ℕ → List (Option String))
    (eff : List (Option String) → ℕ → ℕ) (quota : ℕ) :
    ∀ (fuel page saved p : ℕ), oracle p = [] →
      p ∈ (apiPagesFrom oracle eff quota fuel page saved).1 →
      ∀ q ∈ (apiPagesFrom oracle eff quota fuel page saved).1, q ≤ p := by
  intro fuel
  induction fuel with
  | zero => intro page saved p _ hp; exact absurd hp (by simp [apiPagesFrom])
  | succ fuel ih =>
    intro page saved p hp0 hp q hq
    rw [apiPagesFrom] at hp hq
    by_cases h1 : quota ≤ saved
    · rw [if_pos h1] at hp; exact absurd hp (by simp)
    · rw [if_neg h1] at hp hq
      by_cases h2 : (oracle page).isEmpty = true
      · rw [if_pos h2] at hp hq
        have hpe : p = page := by simpa using hp
        have hqe : q = page := by simpa using hq
        omega
      · rw [if_neg h2] at hp hq
        dsimp only at hp hq
        simp only [List.mem_cons] at hp hq
        rcases hp with rfl | hp
        · exact absurd (by simp [hp0] : (oracle p).isEmpty = true) h2
        · have hlow := apiPagesFrom_lower oracle eff quota fuel (page + 1)
            (eff (oracle page) saved) p hp
          rcases hq with rfl | hq
          · omega
          · exact ih (page + 1) (eff (oracle page) saved) p hp0 hp q hq

/-- Claim C6: If the json-api strategy yields zero stubs on page 1, the
orchestrator requests no further API page for that target and proceeds to
the HTML fallback; in general a page yielding zero stubs is the last page
requested by the strategy (end of data, not an error). -/
theorem claim_C6 (oracle : ℕ → List (Option String))
    (eff : List (Option String) → ℕ → ℕ) (quota maxPages : ℕ)
    (hquota : 1 ≤ quota) (hmax : 1 ≤ maxPages) (h1 : oracle 1 = []) :
    (runTargetModel oracle eff quota maxPages).1 = [1]
    ∧ (runTargetModel oracle eff quota maxPages).2.2 = true
    ∧ ∀ (fuel page saved p : ℕ), oracle p = [] →
        p ∈ (apiPagesFrom oracle eff quota fuel page saved).1 →
        ∀ q ∈ (apiPagesFrom oracle eff quota fuel page saved).1, q ≤ p := by
  obtain ⟨m, rfl⟩ : ∃ m, maxPages = m + 1 := ⟨maxPages - 1, by omega⟩
  have hreq : apiPagesFrom oracle eff quota (m + 1) 1 0 = ([1], 0) := by
    rw [apiPagesFrom, if_neg (by omega), if_pos (by simp [h1])]
  refine ⟨?_, ?_, apiPagesFrom_zero_terminates oracle eff quota⟩
  · simp [runTargetModel, hreq]
  · simp [runTargetModel, hreq, ENABLE_HTML_FALLBACK]
    omega

/-- Witness for C6: a target whose API pages are all empty, with the
default quota 50 and three pages, requests only page 1 and falls through
to the HTML strategy. -/
theorem claim_C6_witness :
    (runTargetModel (fun _ => []) (fun _ n => n) 50 3).1 = [1]
    ∧ (runTargetModel (fun _ => []) (fun _ n => n) 50 3).2.2 = true :=
  ⟨(claim_C6 (fun _ => []) (fun _ n => n) 50 3 (by omega) (by omega) rfl).1,
   (claim_C6 (fun _ => []) (fun _ n => n) 50 3 (by omega) (by omega) rfl).2.1⟩

/-! ## Merge-precedence helper lemmas -/

theorem truthyStr_orStr (a b : Option String) :
    truthyStr (orStr a b) = (truthyStr a || truthyStr b) := by
  by_cases h : truthyStr a = true
  · simp [orStr, h]
  · simp [orStr, h]

theorem truthyStr_eq_true_iff (a : Option String) :
    truthyStr a = true ↔ ∃ s, a = some s ∧ s ≠ "" := by
  cases a <;> simp [truthyStr]

theorem isSome_of_truthyStr {a : Option String} (h : truthyStr a = true) :
    a.isSome = true := by
  cases a with
  | none => simp [truthyStr] at h
  | some s => rfl

theorem orStr_none_of_truthy {a : Option String} (h : truthyStr a = true) :
    orStr a none = a := by
  rw [orStr, if_pos h]

/-- The three outcomes of the JS cascade `d || s || b` on
string-or-null values. -/
theorem orStr2_cases (d s b : Option String) :
    (truthyStr d = true → orStr (orStr d s) b = d)
    ∧ (truthyStr d = false → truthyStr s = true → orStr (orStr d s) b = s)
    ∧ (truthyStr d = false → truthyStr s = false → orStr (orStr d s) b = b) := by
  refine ⟨fun h => ?_, fun h h2 => ?_, fun h h2 => ?_⟩ <;> simp [orStr, *]

/-- The two outcomes of the JS `d || null` on string-or-null values. -/
theorem orStr1_cases (d : Option String) :
    (truthyStr d = true → orStr d none = d)
    ∧ (truthyStr d = false → orStr d none = none) := by
  refine ⟨fun h => ?_, fun h => ?_⟩ <;> simp [orStr, *]

/-- The three outcomes of the JS cascade `d || s || null` on general
primitive values. -/
theorem orPrim2_cases (d s : JsPrim) :
    (truthyPrim d = true → orPrim (orPrim d s) JsPrim.null = d)
    ∧ (truthyPrim d = false → truthyPrim s = true → orPrim (orPrim d s) JsPrim.null = s)
    ∧ (truthyPrim d = false → truthyPrim s = false →
        orPrim (orPrim d s) JsPrim.null = JsPrim.null) := by
  refine ⟨fun h => ?_, fun h h2 => ?_, fun h h2 => ?_⟩ <;> simp [orPrim, *]

/-- The three outcomes of the JS cascade `d ?? s ?? null` on numeric
values: exactly "present and non-null wins". -/
theorem nullishNum2_cases (d s : JsNum) :
    (d ≠ JsNum.null → nullishNum d (nullishNum s JsNum.null) = d)
    ∧ (d = JsNum.null → s ≠ JsNum.null → nullishNum d (nullishNum s JsNum.null) = s)
    ∧ (d = JsNum.null → s = JsNum.null → nullishNum d (nullishNum s JsNum.null) = JsNum.null) := by
  refine ⟨fun h => ?_, fun h h2 => ?_, fun h h2 => ?_⟩
  · cases d with
    | null => exact absurd rfl h
    | nan => rfl
    | num q => rfl
  · subst h
    cases s with
    | null => exact absurd rfl h2
    | nan => rfl
    | num q => rfl
  · subst h; subst h2; rfl

/-- The three outcomes of `d ?? s ?? null` on general primitive values. -/
theorem nullishPrim2_cases (d s : JsPrim) :
    (d ≠ JsPrim.null → nullishPrim d (nullishPrim s JsPrim.null) = d)
    ∧ (d = JsPrim.null → s ≠ JsPrim.null → nullishPrim d (nullishPrim s JsPrim.null) = s)
    ∧ (d = JsPrim.null → s = JsPrim.null →
        nullishPrim d (nullishPrim s JsPrim.null) = JsPrim.null) := by
  refine ⟨fun h => ?_, fun h h2 => ?_, fun h h2 => ?_⟩
  · cases d with
    | null => exact absurd rfl h
    | nan => rfl
    | num q => rfl
    | str s => rfl
  · subst h
    cases s with
    | null => exact absurd rfl h2
    | nan => rfl
    | num q => rfl
    | str t => rfl
  · subst h; subst h2; rfl

/-- The four outcomes of the priceValue cascade
`p1 || p2 || p3 || null` on numeric values. -/
theorem orNum3_cases (p1 p2 p3 : JsNum) :
    (truthyNum p1 = true → orNum (orNum (orNum p1 p2) p3) JsNum.null = p1)
    ∧ (truthyNum p1 = false → truthyNum p2 = true →
        orNum (orNum (orNum p1 p2) p3) JsNum.null = p2)
    ∧ (truthyNum p1 = false → truthyNum p2 = false → truthyNum p3 = true →
        orNum (orNum (orNum p1 p2) p3) JsNum.null = p3)
    ∧ (truthyNum p1 = false → truthyNum p2 = false → truthyNum p3 = false →
        orNum (orNum (orNum p1 p2) p3) JsNum.null = JsNum.null) := by
  refine ⟨fun h => ?_, fun h h2 => ?_, fun h h2 h3 => ?_, fun h h2 h3 => ?_⟩ <;>
    simp [orNum, *]

/-! ## Claim C3 -/

/-- Claim C3, counterexample: The spec's rule "prefer the detail's value when
present and non-null" fails on the code: a detail title that is present
and non-null but empty loses to the stub's title, because the merge uses
JS `||` (truthiness), not a null test. -/
theorem claim_C3_counterexample :
    ({ title := some "" } : Detail).title = some ""
    ∧ specFieldMerge ({ title := some "" } : Detail).title
        ({ title := some "x" } : Stub).title = some ""
    ∧ (buildProperty (some { title := some "x" }) (some { title := some "" })
        "html" "t").title = some "x"
    ∧ (some "x" : Option String) ≠ some "" :=
  ⟨rfl, rfl, by decide, by decide⟩

/-- Claim C3, amended: Field by field, `buildProperty` prefers the
detail's value when it is *truthy* (present, non-null, and non-empty /
non-zero), then the stub's value when truthy, else null — for the fields
merged with JS `||` (title, address, locality, propertyType, price,
description); the numeric fields beds, baths and the coordinates use JS
`??` and hence exactly the spec's "present and non-null" rule; the
postal code falls back to extracting a postcode from the merged address
rather than to null.  The claim's concrete examples hold: stub `beds=2`
with detail `beds=null` merges to 2, and with detail `beds=3` merges
to 3. -/
theorem claim_C3 (L : Stub) (D : Detail) (src ts : String) :
    (truthyStr D.title = true →
        (buildProperty (some L) (some D) src ts).title = D.title)
    ∧ (truthyStr D.title = false → truthyStr L.title = true →
        (buildProperty (some L) (some D) src ts).title = L.title)
    ∧ (truthyStr D.title = false → truthyStr L.title = false →
        (buildProperty (some L) (some D) src ts).title = none)
    ∧ (truthyStr D.address = true →
        (buildProperty (some L) (some D) src ts).address = D.address)
    ∧ (truthyStr D.address = false → truthyStr L.address = true →
        (buildProperty (some L) (some D) src ts).address = L.address)
    ∧ (truthyStr D.address = false → truthyStr L.address = false →
        (buildProperty (some L) (some D) src ts).address = none)
    ∧ (truthyStr D.locality = true →
        (buildProperty (some L) (some D) src ts).locality = D.locality)
    ∧ (truthyStr D.locality = false → truthyStr L.locality = true →
        (buildProperty (some L) (some D) src ts).locality = L.locality)
    ∧ (truthyStr D.locality = false → truthyStr L.locality = false →
        (buildProperty (some L) (some D) src ts).locality = none)
    ∧ (truthyStr D.propertyType = true →
        (buildProperty (some L) (some D) src ts).propertyType = D.propertyType)
    ∧ (truthyStr D.propertyType = false → truthyStr L.propertyType = true →
        (buildProperty (some L) (some D) src ts).propertyType = L.propertyType)
    ∧ (truthyStr D.propertyType = false → truthyStr L.propertyType = false →
        (buildProperty (some L) (some D) src ts).propertyType = none)
    ∧ (truthyPrim D.price = true →
        (buildProperty (some L) (some D) src ts).price = D.price)
    ∧ (truthyPrim D.price = false → truthyPrim L.price = true →
        (buildProperty (some L) (some D) src ts).price = L.price)
    ∧ (truthyPrim D.price = false → truthyPrim L.price = false →
        (buildProperty (some L) (some D) src ts).price = JsPrim.null)
    ∧ (truthyStr D.description = true →
        (buildProperty (some L) (some D) src ts).description = D.description)
    ∧ (truthyStr D.description = false →
        (buildProperty (some L) (some D) src ts).description = none)
    ∧ (truthyStr D.postalCode = true →
        (buildProperty (some L) (some D) src ts).postalCode = D.postalCode)
    ∧ (truthyStr D.postalCode = false → truthyStr L.postalCode = true →
        (buildProperty (some L) (some D) src ts).postalCode = L.postalCode)
    ∧ (truthyStr D.postalCode = false → truthyStr L.postalCode = false →
        (buildProperty (some L) (some D) src ts).postalCode =
          extractUkPostcode ((buildProperty (some L) (some D) src ts).address))
    ∧ (D.beds ≠ JsNum.null →
        (buildProperty (some L) (some D) src ts).beds = D.beds)
    ∧ (D.beds = JsNum.null → L.beds ≠ JsNum.null →
        (buildProperty (some L) (some D) src ts).beds = L.beds)
    ∧ (D.beds = JsNum.null → L.beds = JsNum.null →
        (buildProperty (some L) (some D) src ts).beds = JsNum.null)
    ∧ (D.baths ≠ JsNum.null →
        (buildProperty (some L) (some D) src ts).baths = D.baths)
    ∧ (D.baths = JsNum.null → L.baths ≠ JsNum.null →
        (buildProperty (some L) (some D) src ts).baths = L.baths)
    ∧ (D.baths = JsNum.null → L.baths = JsNum.null →
        (buildProperty (some L) (some D) src ts).baths = JsNum.null)
    ∧ (D.latitude ≠ JsPrim.null →
        (buildProperty (some L) (some D) src ts).latitude = D.latitude)
    ∧ (D.latitude = JsPrim.null → L.latitude ≠ JsPrim.null →
        (buildProperty (some L) (some D) src ts).latitude = L.latitude)
    ∧ (buildProperty (some { beds := JsNum.num 2 }) (some ({} : Detail))
        src ts).beds = JsNum.num 2
    ∧ (buildProperty (some { beds := JsNum.num 2 }) (some { beds := JsNum.num 3 })
        src ts).beds = JsNum.num 3 := by
  refine ⟨(orStr2_cases D.title L.title none).1,
    (orStr2_cases D.title L.title none).2.1,
    (orStr2_cases D.title L.title none).2.2,
    (orStr2_cases D.address L.address none).1,
    (orStr2_cases D.address L.address none).2.1,
    (orStr2_cases D.address L.address none).2.2,
    (orStr2_cases D.locality L.locality none).1,
    (orStr2_cases D.locality L.locality none).2.1,
    (orStr2_cases D.locality L.locality none).2.2,
    (orStr2_cases D.propertyType L.propertyType none).1,
    (orStr2_cases D.propertyType L.propertyType none).2.1,
    (orStr2_cases D.propertyType L.propertyType none).2.2,
    (orPrim2_cases D.price L.price).1,
    (orPrim2_cases D.price L.price).2.1,
    (orPrim2_cases D.price L.price).2.2,
    (orStr1_cases D.description).1,
    (orStr1_cases D.description).2,
    (orStr2_cases D.postalCode L.postalCode _).1,
    (orStr2_cases D.postalCode L.postalCode _).2.1,
    (orStr2_cases D.postalCode L.postalCode _).2.2,
    (nullishNum2_cases D.beds L.beds).1,
    (nullishNum2_cases D.beds L.beds).2.1,
    (nullishNum2_cases D.beds L.beds).2.2,
    (nullishNum2_cases D.baths L.baths).1,
    (nullishNum2_cases D.baths L.baths).2.1,
    (nullishNum2_cases D.baths L.baths).2.2,
    (nullishPrim2_cases D.latitude L.latitude).1,
    (nullishPrim2_cases D.latitude L.latitude).2.1,
    rfl, rfl⟩

/-- Witness for C3 at concrete records, discharging the hypotheses of a
`||` field and of a `??` field. -/
theorem claim_C3_witness :
    (buildProperty (some { title := some "s", beds := JsNum.num 2 })
        (some { title := some "d" }) "html" "t").title = some "d"
    ∧ (buildProperty (some { title := some "s", beds := JsNum.num 2 })
        (some { title := some "d" }) "html" "t").beds = JsNum.num 2 :=
  ⟨(claim_C3 { title := some "s", beds := JsNum.num 2 } { title := some "d" }
      "html" "t").1 (by decide),
   (claim_C3 { title := some "s", beds := JsNum.num 2 } { title := some "d" }
      "html" "t").2.2.2.2.2.2.2.2.2.2.2.2.2.2.2.2.2.2.2.2.2.1 rfl (by decide)⟩

/-! ## Claim C4 -/

/-- Claim C4, counterexample: The claim quantifies over stubs whose URL is
non-null; a stub carrying the (non-null) empty-string URL yields a merged
Property whose `listingId` is null, because the JS `||` chain treats the
empty string as absent. -/
theorem claim_C4_counterexample :
    ({ url := some "" } : Stub).url ≠ none
    ∧ (buildProperty (some { url := some "" }) none "html" "t").listingId = none :=
  ⟨by decide, by decide⟩

/-- Claim C4, amended: Whenever the stub or the detail carries a truthy
(non-null, non-empty) URL, the merged Property has a non-null
`listingId`; and the cascade starts from the stub's id when that id is
truthy. -/
theorem claim_C4 (L : Stub) (D : Detail) (src ts : String)
    (h : truthyStr L.url = true ∨ truthyStr D.url = true) :
    (buildProperty (some L) (some D) src ts).listingId.isSome = true
    ∧ (truthyStr L.listingId = true →
        (buildProperty (some L) (some D) src ts).listingId = L.listingId) := by
  have hfield : (buildProperty (some L) (some D) src ts).listingId =
      orStr (orStr (orStr (orStr L.listingId D.listingId)
        (extractListingId (ensureAbsoluteUrl (orStr L.url D.url))))
        (ensureAbsoluteUrl (orStr L.url D.url))) none := rfl
  have hu : truthyStr (orStr L.url D.url) = true := by
    rw [truthyStr_orStr]
    rcases h with h | h <;> simp [h]
  obtain ⟨s, hs, hne⟩ := (truthyStr_eq_true_iff _).mp hu
  obtain ⟨r, hr⟩ := ensureAbsoluteUrl_some_of_ne_empty hne
  have hrne : r ≠ "" := ensureAbsoluteUrl_some_ne_empty hr
  constructor
  · rw [hfield, hs, hr]
    have hbig : truthyStr (orStr (orStr (orStr L.listingId D.listingId)
        (extractListingId (some r))) (some r)) = true := by
      rw [truthyStr_orStr]
      have hsr : truthyStr (some r) = true := by
        simp [truthyStr]
        exact hrne
      simp [hsr]
    rw [orStr_none_of_truthy hbig]
    exact isSome_of_truthyStr hbig
  · intro h2
    rw [hfield]
    simp [orStr, h2]

/-- Witness for C4 at a concrete stub with a relative URL and an id. -/
theorem claim_C4_witness :
    (buildProperty (some { listingId := some "99", url := some "/x" })
        (some ({} : Detail)) "html" "t").listingId = some "99" :=
  (claim_C4 { listingId := some "99", url := some "/x" } {} "html" "t"
      (Or.inl (by decide))).2 (by decide)

/-! ## Claim C8 -/

/-- Claim C8, counterexample: "First successful parse wins" fails on the
code for a parse result of `0`: the detail's price `"£0"` parses
successfully to `0`, but `0` is falsy in the JS `||` cascade, so the
stub's pre-parsed value wins instead. -/
theorem claim_C8_counterexample :
    parsePriceValue (JsPrim.str "£0") = JsNum.num 0
    ∧ (buildProperty (some { priceValue := JsNum.num 5 })
        (some { price := JsPrim.str "£0" }) "html" "t").priceValue = JsNum.num 5
    ∧ JsNum.num 5 ≠ JsNum.num 0 :=
  ⟨by decide, by decide, by decide⟩

/-- Claim C8, amended: `parsePriceValue` maps `"£325,000"` to `325000` and
null or the empty string to null; and the merged `priceValue` attempts,
in order, the detail's price parsed numerically, the stub's pre-parsed
numeric value, and the stub's display price parsed numerically, where the
first *truthy* (non-zero, non-NaN) parse wins and a cascade with no
truthy parse gives null. -/
theorem claim_C8 (L : Stub) (D : Detail) (src ts : String) :
    parsePriceValue (JsPrim.str "£325,000") = JsNum.num 325000
    ∧ parsePriceValue JsPrim.null = JsNum.null
    ∧ parsePriceValue (JsPrim.str "") = JsNum.null
    ∧ (truthyNum (parsePriceValue D.price) = true →
        (buildProperty (some L) (some D) src ts).priceValue = parsePriceValue D.price)
    ∧ (truthyNum (parsePriceValue D.price) = false →
       truthyNum (parsePriceValue (primOfNum L.priceValue)) = true →
        (buildProperty (some L) (some D) src ts).priceValue =
          parsePriceValue (primOfNum L.priceValue))
    ∧ (truthyNum (parsePriceValue D.price) = false →
       truthyNum (parsePriceValue (primOfNum L.priceValue)) = false →
       truthyNum (parsePriceValue L.price) = true →
        (buildProperty (some L) (some D) src ts).priceValue = parsePriceValue L.price)
    ∧ (truthyNum (parsePriceValue D.price) = false →
       truthyNum (parsePriceValue (primOfNum L.priceValue)) = false →
       truthyNum (parsePriceValue L.price) = false →
        (buildProperty (some L) (some D) src ts).priceValue = JsNum.null) :=
  ⟨by decide, rfl, rfl,
   (orNum3_cases (parsePriceValue D.price)
      (parsePriceValue (primOfNum L.priceValue)) (parsePriceValue L.price)).1,
   (orNum3_cases (parsePriceValue D.price)
      (parsePriceValue (primOfNum L.priceValue)) (parsePriceValue L.price)).2.1,
   (orNum3_cases (parsePriceValue D.price)
      (parsePriceValue (primOfNum L.priceValue)) (parsePriceValue L.price)).2.2.1,
   (orNum3_cases (parsePriceValue D.price)
      (parsePriceValue (primOfNum L.priceValue)) (parsePriceValue L.price)).2.2.2⟩

/-- Witness for C8: the detail's display price parses first and wins. -/
theorem claim_C8_witness :
    (buildProperty (some ({} : Stub)) (some { price := JsPrim.str "£325,000" })
        "html" "t").priceValue = JsNum.num 325000 := by
  have h := (claim_C8 {} { price := JsPrim.str "£325,000" } "html" "t").2.2.2.1 (by decide)
  rw [h]
  exact (claim_C8 {} { price := JsPrim.str "£325,000" } "html" "t").1

/-! ## Postcode-matcher soundness -/

theorem orElse_eq_some {α : Type} {a b : Option α} {c : α}
    (h : (a <|> b) = some c) : a = some c ∨ (a = none ∧ b = some c) := by
  cases a with
  | none => exact Or.inr ⟨rfl, by simpa using h⟩
  | some x => exact Or.inl (by simpa using h)

theorem mEnd_sound : ∀ {cs m r : List Char}, mEnd cs = some (m, r) →
    cs = m ++ r ∧ shapedTail2 m = true := by
  intro cs m r h
  rcases cs with _ | ⟨d, _ | ⟨l1, _ | ⟨l2, rest⟩⟩⟩
  · simp [mEnd] at h
  · simp [mEnd] at h
  · simp [mEnd] at h
  · rw [mEnd] at h
    by_cases hc : (d.isDigit && isLetterB l1 && isLetterB l2 && bAfter rest) = true
    · rw [if_pos hc] at h
      simp only [Option.some.injEq, Prod.mk.injEq] at h
      obtain ⟨hm, hr⟩ := h
      subst hm; subst hr
      simp only [Bool.and_eq_true] at hc
      exact ⟨rfl, by simp [shapedTail2, hc.1.1.1, hc.1.1.2, hc.1.2]⟩
    · rw [if_neg hc] at h
      exact absurd h (by simp)

theorem mSpaceEnd_sound : ∀ {cs m r : List Char}, mSpaceEnd cs = some (m, r) →
    cs = m ++ r ∧ shapedTail1 m = true := by
  intro cs m r h
  rcases orElse_eq_some h with h1 | ⟨-, h2⟩
  · rcases cs with _ | ⟨c, rest⟩
    · simp at h1
    · dsimp only at h1
      by_cases hsp : isSpaceB c = true
      · rw [if_pos hsp, Option.map_eq_some'] at h1
        obtain ⟨⟨m0, r0⟩, hm0, heq⟩ := h1
        obtain ⟨hcs, hsh⟩ := mEnd_sound hm0
        simp only [Prod.mk.injEq] at heq
        obtain ⟨hm, hr⟩ := heq
        subst hm; subst hr; subst hcs
        exact ⟨rfl, by simp [shapedTail1, hsp, hsh]⟩
      · rw [if_neg hsp] at h1
        exact absurd h1 (by simp)
  · obtain ⟨hcs, hsh⟩ := mEnd_sound h2
    exact ⟨hcs, by simp [shapedTail1, hsh]⟩

theorem mOptAlnum_sound : ∀ {cs m r : List Char}, mOptAlnum cs = some (m, r) →
    cs = m ++ r ∧ shapedAfterDigitB m = true := by
  intro cs m r h
  rcases orElse_eq_some h with h1 | ⟨-, h2⟩
  · rcases cs with _ | ⟨c, rest⟩
    · simp at h1
    · dsimp only at h1
      by_cases hal : isAlnumB c = true
      · rw [if_pos hal, Option.map_eq_some'] at h1
        obtain ⟨⟨m0, r0⟩, hm0, heq⟩ := h1
        obtain ⟨hcs, hsh⟩ := mSpaceEnd_sound hm0
        simp only [Prod.mk.injEq] at heq
        obtain ⟨hm, hr⟩ := heq
        subst hm; subst hr; subst hcs
        exact ⟨rfl, by simp [shapedAfterDigitB, hal, hsh]⟩
      · rw [if_neg hal] at h1
        exact absurd h1 (by simp)
  · obtain ⟨hcs, hsh⟩ := mSpaceEnd_sound h2
    exact ⟨hcs, by simp [shapedAfterDigitB, hsh]⟩

theorem mDigitCore_sound : ∀ {cs m r : List Char}, mDigitCore cs = some (m, r) →
    cs = m ++ r ∧ shapedCore m = true := by
  intro cs m r h
  rcases cs with _ | ⟨d, rest⟩
  · simp [mDigitCore] at h
  · rw [mDigitCore] at h
    by_cases hd : d.isDigit = true
    · rw [if_pos hd, Option.map_eq_some'] at h
      obtain ⟨⟨m0, r0⟩, hm0, heq⟩ := h
      obtain ⟨hcs, hsh⟩ := mOptAlnum_sound hm0
      simp only [Prod.mk.injEq] at heq
      obtain ⟨hm, hr⟩ := heq
      subst hm; subst hr; subst hcs
      exact ⟨rfl, by simp [shapedCore, hd, hsh]⟩
    · rw [if_neg hd] at h
      exact absurd h (by simp)

theorem mLetters_sound : ∀ {cs m r : List Char}, mLetters cs = some (m, r) →
    cs = m ++ r ∧ shapedB m = true := by
  intro cs m r h
  rcases cs with _ | ⟨a, rest⟩
  · simp [mLetters] at h
  · rw [mLetters.eq_def] at h
    dsimp only at h
    by_cases ha : isLetterB a = true
    · rw [if_pos ha] at h
      rcases orElse_eq_some h with h1 | ⟨-, h2⟩
      · rcases rest with _ | ⟨b, rest2⟩
        · simp at h1
        · dsimp only at h1
          by_cases hb : isLetterB b = true
          · rw [if_pos hb, Option.map_eq_some'] at h1
            obtain ⟨⟨m0, r0⟩, hm0, heq⟩ := h1
            obtain ⟨hcs, hsh⟩ := mDigitCore_sound hm0
            simp only [Prod.mk.injEq] at heq
            obtain ⟨hm, hr⟩ := heq
            subst hm; subst hr; subst hcs
            exact ⟨rfl, by simp [shapedB, ha, hb, hsh]⟩
          · rw [if_neg hb] at h1
            exact absurd h1 (by simp)
      · rw [Option.map_eq_some'] at h2
        obtain ⟨⟨m0, r0⟩, hm0, heq⟩ := h2
        obtain ⟨hcs, hsh⟩ := mDigitCore_sound hm0
        simp only [Prod.mk.injEq] at heq
        obtain ⟨hm, hr⟩ := heq
        subst hm; subst hr; subst hcs
        exact ⟨rfl, by simp [shapedB, ha, hsh]⟩
    · rw [if_neg ha] at h
      exact absurd h (by simp)

theorem pcScan_sound : ∀ (cs : List Char) (prev : Option Char) (m : List Char),
    pcScan prev cs = some m →
    ∃ l r, cs = l ++ (m ++ r) ∧ shapedB m = true := by
  intro cs
  induction cs with
  | nil => intro prev m h; simp [pcScan] at h
  | cons c rest ih =>
    intro prev m h
    rw [pcScan] at h
    by_cases hb : boundaryOk prev = true
    · rw [if_pos hb] at h
      rcases hml : mLetters (c :: rest) with _ | p
      · rw [hml] at h
        obtain ⟨l, r, heq, hsh⟩ := ih (some c) m h
        exact ⟨c :: l, r, by rw [heq]; rfl, hsh⟩
      · rw [hml] at h
        simp only [Option.some.injEq] at h
        subst h
        obtain ⟨hcs, hsh⟩ := mLetters_sound hml
        exact ⟨[], p.2, by rw [← hcs]; rfl, hsh⟩
    · rw [if_neg hb] at h
      obtain ⟨l, r, heq, hsh⟩ := ih (some c) m h
      exact ⟨c :: l, r, by rw [heq]; rfl, hsh⟩

/-- Every non-null result of `extractUkPostcode` is the uppercasing of a
postcode-shaped substring of the input; contrapositively, an input with
no postcode-shaped substring gives null. -/
theorem extractUkPostcode_sound {s t : String}
    (h : extractUkPostcode (some s) = some t) :
    ∃ m l r, s.toList = l ++ (m ++ r) ∧ shapedB m = true
      ∧ t = String.mk (m.map Char.toUpper) := by
  rw [extractUkPostcode] at h
  by_cases h0 : s = ""
  · rw [if_pos h0] at h
    exact absurd h (by simp)
  · rw [if_neg h0, Option.map_eq_some'] at h
    obtain ⟨m, hm, ht⟩ := h
    obtain ⟨l, r, heq, hsh⟩ := pcScan_sound s.toList none m hm
    exact ⟨m, l, r, heq, hsh, ht.symm⟩

/-! ## Claim C7 -/

/-- Claim C7, counterexample: The claimed regex family ends with an
outcode-only pattern anchored at the end of the string; the code
(src/main.js:125-129) has a single full-postcode regex and no such
fallback, so an input ending in a bare outcode yields null where the
claimed family yields the outcode. -/
theorem claim_C7_counterexample :
    extractUkPostcode (some "London SW1A") = none
    ∧ specOutcodeAtEnd "London SW1A" = some "SW1A" :=
  ⟨by decide, by decide⟩

/-- Claim C7, amended: `extractUkPostcode` maps
`"Shoreditch, London E1 6AN"` to `"E1 6AN"` and `"SW1A1AA"` to
`"SW1A1AA"` (uppercased, equal to `"SW1A 1AA"` up to the optional space);
every non-null result is the uppercasing of a postcode-shaped substring
of the input, so inputs with no postcode-shaped substring give null.  The
extraction uses a single regex whose optional `\s?` covers the spaced and
unspaced forms at once; there is no outcode-only fallback. -/
theorem claim_C7 :
    extractUkPostcode (some "Shoreditch, London E1 6AN") = some "E1 6AN"
    ∧ extractUkPostcode (some "SW1A1AA") = some "SW1A1AA"
    ∧ "SW1A1AA".toList.filter (fun c => !(isSpaceB c))
        = "SW1A 1AA".toList.filter (fun c => !(isSpaceB c))
    ∧ ∀ s t, extractUkPostcode (some s) = some t →
        ∃ m l r, s.toList = l ++ (m ++ r) ∧ shapedB m = true
          ∧ t = String.mk (m.map Char.toUpper) :=
  ⟨by decide, by decide, by decide, fun s t h => extractUkPostcode_sound h⟩

/-- Witness for C7: the soundness implication applied at `"SW1A1AA"`. -/
theorem claim_C7_witness :
    ∃ m l r, ("SW1A1AA" : String).toList = l ++ (m ++ r) ∧ shapedB m = true
      ∧ "SW1A1AA" = String.mk (m.map Char.toUpper) :=
  claim_C7.2.2.2 "SW1A1AA" "SW1A1AA" (by decide)

end Zoopla
